import Mathlib

/-!
Shallow embedding of the todo application in `src/app.js` (classes `Task` and
`TodoApp`), used to settle the specification claims.

Modelling conventions:
* JS strings are `String`, timestamps (`Date` values) are `Int` milliseconds
  since the epoch, and JS numbers arising in `calculatePriority` are `ℚ`
  (exact arithmetic standing in for IEEE doubles).
* The DOM and rendering have no state effect on the store, so `renderTasks`
  is not modelled; `localStorage` is one `Option String` slot (key `tasks`).
* `Math.random()` returns a double in `[0, 1)`; we model it as `k / 2^53`
  with `k < 2^53`, the canonical distribution of engine outputs, and
  `Number.prototype.toString(36)` as the exact base-36 digit expansion of
  that dyadic rational (terminating when the remainder is zero).
* `JSON.parse` is a full-grammar recursive-descent parser on `List Char`
  (fuel-indexed for totality); `JSON.stringify(this.tasks)` is printed
  directly from the task-list shape the app serializes.
* `\uXXXX` escapes follow JS: any scalar value outside the surrogate range
  is its character, a high surrogate followed by an escaped low surrogate
  combines into the astral character, and an unpaired surrogate yields a JS
  string carrying a lone UTF-16 unit — unrepresentable in a Lean `String`,
  so the model stands it in with U+FFFD; which documents parse is
  unaffected, only that one string value is approximated.
* The object literals in `getCategoryIcon` and `getStatusText` are plain
  objects, so a property read that misses the literal's own keys falls
  through to `Object.prototype` before becoming `undefined`; `jsGetProp`
  models that chain explicitly (`JsProp`).
-/

namespace Todo

/-! ## JSON values

A parsed JSON document, as a mutual inductive so that structural recursion
and induction over arrays and objects stay elementary. -/

mutual

inductive JVal : Type where
  | jnull : JVal
  | jbool : Bool → JVal
  | jnum : ℚ → JVal
  | jstr : String → JVal
  | jarr : JArr → JVal
  | jobj : JObj → JVal

inductive JArr : Type where
  | anil : JArr
  | acons : JVal → JArr → JArr

inductive JObj : Type where
  | onil : JObj
  | ocons : String → JVal → JObj → JObj

end

deriving instance DecidableEq for JVal

/-! ## Lexical helpers -/

/-- JSON insignificant whitespace (RFC 8259: space, tab, line feed, carriage return). -/
def jsonWs (c : Char) : Bool :=
  c == ' ' || c == '\t' || c == '\n' || c == '\r'

/-- Drop leading JSON whitespace. -/
def dropWs : List Char → List Char
  | [] => []
  | c :: cs => if jsonWs c then dropWs cs else c :: cs

def isDig (c : Char) : Bool := '0' ≤ c && c ≤ '9'

/-- Numeric value of one hexadecimal digit (both cases), as `JSON.parse` accepts. -/
def hexv (c : Char) : Option Nat :=
  if '0' ≤ c && c ≤ '9' then some (c.toNat - 48)
  else if 'a' ≤ c && c ≤ 'f' then some (c.toNat - 87)
  else if 'A' ≤ c && c ≤ 'F' then some (c.toNat - 55)
  else none

/-- Lower-case hexadecimal digit character for `n < 16`, as `JSON.stringify` emits. -/
def hexc (n : Nat) : Char :=
  if n < 10 then Char.ofNat (48 + n) else Char.ofNat (87 + n)

/-! ## String escaping (the `JSON.stringify` quoting rules) -/

/-- How `JSON.stringify` writes one character inside a quoted string:
`"` and `\` get a backslash; backspace, form feed, newline, carriage return
and tab get their short escapes; remaining control characters become
`\u00xx`; everything else is written verbatim. -/
def escapeOne (c : Char) : List Char :=
  if c = '"' then ['\\', '"']
  else if c = '\\' then ['\\', '\\']
  else if c = '\x08' then ['\\', 'b']
  else if c = '\x0c' then ['\\', 'f']
  else if c = '\n' then ['\\', 'n']
  else if c = '\r' then ['\\', 'r']
  else if c = '\t' then ['\\', 't']
  else if c.toNat < 32 then
    ['\\', 'u', '0', '0', hexc (c.toNat / 16), hexc (c.toNat % 16)]
  else [c]

/-- Escape a whole character sequence. -/
def escapeAll : List Char → List Char
  | [] => []
  | c :: cs => escapeOne c ++ escapeAll cs

/-- A string as `JSON.stringify` prints it: quoted and escaped. -/
def quoteStr (s : String) : List Char :=
  '"' :: (escapeAll s.toList ++ ['"'])

/-! ## The `JSON.parse` model

Recursive descent over `List Char`.  `readJ` parses one value, `readElems`
the tail of a non-empty array, `readFields` the tail of a non-empty object;
all recurse on an explicit fuel so totality is structural.  `readStr` and
`readNum` are fuel-free (they recurse on the input). -/

/-- `JSON.parse` accepts any four hex digits after `\u`, including a lone
surrogate, which yields a JS string carrying an unpaired UTF-16 unit.  A
Lean `String` cannot carry such a unit, so the model stands it in with
U+FFFD; which documents parse (the subject of the load claims) is
unaffected, only the unrepresentable string value is approximated. -/
def loneSurrogateChar : Char := '�'

/-- The `\uYYYY` escape of a low surrogate, when the input starts with
one: its code-unit value.  Exactly six characters are matched. -/
def lowSurEsc : List Char → Option Nat
  | '\\' :: 'u' :: g1 :: g2 :: g3 :: g4 :: _ =>
    (match hexv g1, hexv g2, hexv g3, hexv g4 with
     | some a, some b, some c, some d =>
       if 56320 ≤ ((a * 16 + b) * 16 + c) * 16 + d ∧
           ((a * 16 + b) * 16 + c) * 16 + d ≤ 57343
       then some (((a * 16 + b) * 16 + c) * 16 + d) else none
     | _, _, _, _ => none)
  | _ => none

/-- One `\uXXXX` escape, the input starting at the first hex digit: the
decoded character together with how many input characters were consumed
(4, or 10 when a high surrogate pairs with a following `\uYYYY` low
surrogate).  A scalar value outside the surrogate range is that character,
a surrogate pair combines into the astral character, and an unpaired
surrogate becomes the U+FFFD stand-in (see `loneSurrogateChar`). -/
def uEsc : List Char → Option (Char × Nat)
  | h1 :: h2 :: h3 :: h4 :: r2 =>
    (match hexv h1, hexv h2, hexv h3, hexv h4 with
     | some a, some b, some c, some d =>
       if ((a * 16 + b) * 16 + c) * 16 + d < 55296 ∨
           57343 < ((a * 16 + b) * 16 + c) * 16 + d then
         some (Char.ofNat (((a * 16 + b) * 16 + c) * 16 + d), 4)
       else if ((a * 16 + b) * 16 + c) * 16 + d ≤ 56319 then
         match lowSurEsc r2 with
         | some m =>
           some (Char.ofNat (65536 +
             (((a * 16 + b) * 16 + c) * 16 + d - 55296) * 1024 + (m - 56320)), 10)
         | none => some (loneSurrogateChar, 4)
       else some (loneSurrogateChar, 4)
     | _, _, _, _ => none)
  | _ => none

/-- Body of a quoted string after the opening `"`, accumulating in reverse.
A backslash introduces one of the eight short escapes or `\uXXXX` with any
four hex digits, decoded by `uEsc` (scalars, surrogate pairs, and the
U+FFFD stand-in for an unpaired surrogate).  Raw control characters are
rejected, everything else is taken verbatim. -/
def readStr : List Char → List Char → Option (String × List Char)
  | [], _ => none
  | c :: rest, acc =>
    if c = '"' then some (String.mk acc.reverse, rest)
    else if c = '\\' then
      match rest with
      | [] => none
      | e :: r =>
        if e = '"' then readStr r ('"' :: acc)
        else if e = '\\' then readStr r ('\\' :: acc)
        else if e = '/' then readStr r ('/' :: acc)
        else if e = 'b' then readStr r ('\x08' :: acc)
        else if e = 'f' then readStr r ('\x0c' :: acc)
        else if e = 'n' then readStr r ('\n' :: acc)
        else if e = 'r' then readStr r ('\r' :: acc)
        else if e = 't' then readStr r ('\t' :: acc)
        else if e = 'u' then
          match uEsc r with
          | some (ch, k) => readStr (r.drop k) (ch :: acc)
          | none => none
        else none
    else if c.toNat < 32 then none
    else readStr rest (c :: acc)
termination_by input _ => input.length
decreasing_by
  all_goals simp_wf
  all_goals omega

/-- A maximal run of decimal digits and the remainder. -/
def digitSpan : List Char → List Char × List Char
  | [] => ([], [])
  | c :: cs =>
    if isDig c then
      let (ds, r) := digitSpan cs
      (c :: ds, r)
    else ([], c :: cs)

/-- Value of a decimal digit run. -/
def digitsVal (ds : List Char) : Nat :=
  ds.foldl (fun a c => a * 10 + (c.toNat - 48)) 0

/-- A JSON number literal: optional minus, integer part (`0` or no leading
zero), optional fraction, optional exponent; value as an exact rational. -/
def readNum (cs : List Char) : Option (ℚ × List Char) :=
  let (neg, cs1) := match cs with
    | '-' :: r => (true, r)
    | _ => (false, cs)
  let (ids, cs2) := digitSpan cs1
  match ids with
  | [] => none
  | i0 :: irest =>
    if i0 = '0' ∧ irest ≠ [] then none
    else
      let (fds, cs3) := match cs2 with
        | '.' :: r => digitSpan r
        | _ => ([], cs2)
      let fracOk : Bool := match cs2 with
        | '.' :: _ => decide (fds ≠ [])
        | _ => true
      let (expPart, cs4) : Option Int × List Char := match cs3 with
        | 'e' :: r | 'E' :: r =>
          let (esgn, r1) : Int × List Char := match r with
            | '+' :: r2 => (1, r2)
            | '-' :: r2 => (-1, r2)
            | _ => (1, r)
          let (eds, r2) := digitSpan r1
          match eds with
          | [] => (none, r2)
          | _ => (some (esgn * (digitsVal eds : Int)), r2)
        | _ => (some 0, cs3)
      match fracOk, expPart with
      | true, some e =>
        let mag : ℚ :=
          ((digitsVal (ids ++ fds) : ℚ) / (10 : ℚ) ^ fds.length) * (10 : ℚ) ^ e
        some ((if neg then -mag else mag), cs4)
      | _, _ => none

/-- Wrap a parsed string body as a value. -/
def strResult : Option (String × List Char) → Option (JVal × List Char)
  | some (s, r) => some (.jstr s, r)
  | none => none

/-- Wrap a parsed number literal as a value. -/
def numResult : Option (ℚ × List Char) → Option (JVal × List Char)
  | some (q, r) => some (.jnum q, r)
  | none => none

/-- Wrap parsed array elements as a value. -/
def arrResult : Option (JArr × List Char) → Option (JVal × List Char)
  | some (a, r) => some (.jarr a, r)
  | none => none

/-- Wrap parsed object members as a value. -/
def objResult : Option (JObj × List Char) → Option (JVal × List Char)
  | some (o, r) => some (.jobj o, r)
  | none => none

/-- Prepend an element to parsed remaining elements. -/
def arrCons (v : JVal) : Option (JArr × List Char) → Option (JArr × List Char)
  | some (a, r) => some (.acons v a, r)
  | none => none

/-- Prepend a member to parsed remaining members. -/
def objCons (k : String) (v : JVal) : Option (JObj × List Char) → Option (JObj × List Char)
  | some (o, r) => some (.ocons k v o, r)
  | none => none

mutual

/-- Parse one JSON value (leading whitespace allowed).  The fuel decreases
on entry; one unit is always enough for one character of input. -/
def readJ : Nat → List Char → Option (JVal × List Char)
  | 0, _ => none
  | fuel + 1, input => dispatch fuel (dropWs input)
termination_by fuel _ => (fuel, 0)

/-- Branch on the first significant character of a value. -/
def dispatch : Nat → List Char → Option (JVal × List Char)
  | _, 'n' :: 'u' :: 'l' :: 'l' :: r => some (.jnull, r)
  | _, 't' :: 'r' :: 'u' :: 'e' :: r => some (.jbool true, r)
  | _, 'f' :: 'a' :: 'l' :: 's' :: 'e' :: r => some (.jbool false, r)
  | _, '"' :: r => strResult (readStr r [])
  | fuel, '[' :: r => arrBody fuel (dropWs r)
  | fuel, '{' :: r => objBody fuel (dropWs r)
  | _, c :: r => if c == '-' || isDig c then numResult (readNum (c :: r)) else none
  | _, [] => none
termination_by fuel _ => (fuel, 9)

/-- After `[`: either an immediate `]` or a non-empty element list. -/
def arrBody : Nat → List Char → Option (JVal × List Char)
  | _, ']' :: r => some (.jarr .anil, r)
  | fuel, r => arrResult (readElems fuel r)
termination_by fuel _ => (fuel, 4)

/-- After `{`: either an immediate `}` or a non-empty member list. -/
def objBody : Nat → List Char → Option (JVal × List Char)
  | _, '}' :: r => some (.jobj .onil, r)
  | fuel, r => objResult (readFields fuel r)
termination_by fuel _ => (fuel, 8)

/-- Elements of a non-empty array, up to and including the closing `]`. -/
def readElems : Nat → List Char → Option (JArr × List Char)
  | 0, _ => none
  | fuel + 1, input => elemCont fuel (readJ fuel input)
termination_by fuel _ => (fuel, 1)

/-- Continue an element list after one parsed element. -/
def elemCont (fuel : Nat) : Option (JVal × List Char) → Option (JArr × List Char)
  | some (v, r) => elemSep fuel v (dropWs r)
  | none => none
termination_by _ => (fuel, 3)

/-- After one element: a comma continues the list, `]` closes it. -/
def elemSep (fuel : Nat) (v : JVal) : List Char → Option (JArr × List Char)
  | ',' :: r2 => arrCons v (readElems fuel r2)
  | ']' :: r2 => some (.acons v .anil, r2)
  | _ => none
termination_by _ => (fuel, 2)

/-- Members of a non-empty object, up to and including the closing `}`. -/
def readFields : Nat → List Char → Option (JObj × List Char)
  | 0, _ => none
  | fuel + 1, input => fieldKey fuel (dropWs input)
termination_by fuel _ => (fuel, 1)

/-- A member starts with a quoted key. -/
def fieldKey : Nat → List Char → Option (JObj × List Char)
  | fuel, '"' :: r => fieldColon fuel (readStr r [])
  | _, _ => none
termination_by fuel _ => (fuel, 7)

/-- Continue a member after its parsed key. -/
def fieldColon (fuel : Nat) : Option (String × List Char) → Option (JObj × List Char)
  | some (k, r1) => fieldVal fuel k (dropWs r1)
  | none => none
termination_by _ => (fuel, 6)

/-- A colon separates the key from its value. -/
def fieldVal (fuel : Nat) (k : String) : List Char → Option (JObj × List Char)
  | ':' :: r2 => fieldAfter fuel k (readJ fuel r2)
  | _ => none
termination_by _ => (fuel, 5)

/-- Continue a member list after one parsed member value. -/
def fieldAfter (fuel : Nat) (k : String) : Option (JVal × List Char) → Option (JObj × List Char)
  | some (v, r3) => fieldSep fuel k v (dropWs r3)
  | none => none
termination_by _ => (fuel, 4)

/-- After one member: a comma continues the list, `}` closes it. -/
def fieldSep (fuel : Nat) (k : String) (v : JVal) : List Char → Option (JObj × List Char)
  | ',' :: r4 => objCons k v (readFields fuel r4)
  | '}' :: r4 => some (.ocons k v .onil, r4)
  | _ => none
termination_by _ => (fuel, 2)

end

/-- `JSON.parse`: one value, then only whitespace may remain. -/
def jsonParse (s : String) : Option JVal :=
  match readJ (s.length + 1) s.toList with
  | some (v, rest) => if dropWs rest = [] then some v else none
  | none => none

/-! ## Identifier generation

`Math.random().toString(36).substring(2, 11)` from the `Task` constructor.
The random double is `k / 2^53` with `k < 2^53`; `toString(36)` is `"0"`
for zero and otherwise `"0."` followed by the base-36 digits of the
fraction (the expansion of `k / 2^53` terminates within 27 digits). -/

/-- Base-36 digit character (`0-9`, then `a-z`). -/
def base36Digit (n : Nat) : Char :=
  if n < 10 then Char.ofNat (48 + n) else Char.ofNat (87 + n)

/-- Base-36 fraction digits of `k / 2^53`, most significant first, stopping
when the remainder vanishes; `fuel` bounds the digit count (27 suffices,
since `2^53` divides `36^27`). -/
def frac36 : Nat → Nat → List Char
  | 0, _ => []
  | _, 0 => []
  | fuel + 1, k =>
    let k36 := k * 36
    base36Digit (k36 / 9007199254740992) :: frac36 fuel (k36 % 9007199254740992)

/-- `Number.prototype.toString(36)` on a random double `k / 2^53`. -/
def randToString36 (k : Nat) : String :=
  if k = 0 then "0" else String.mk ('0' :: '.' :: frac36 54 k)

/-- `String.prototype.substring(2, 11)`: with both indices clamped to the
string length and `2 ≤ 11`, this is exactly drop 2 then take 9. -/
def substring211 (s : String) : String :=
  String.mk ((s.toList.drop 2).take 9)

/-- The identifier the `Task` constructor assigns, as a function of the
random source. -/
def makeId (k : Nat) : String :=
  substring211 (randToString36 k)

/-! ## `Date.prototype.toISOString`

`JSON.stringify` serializes a `Date` through `toJSON`, which returns
`toISOString()`: `YYYY-MM-DDTHH:mm:ss.sssZ`, with an expanded signed
six-digit year outside `0000`–`9999`. -/

/-- Civil date (year, month, day) of a day number relative to 1970-01-01
(Gregorian, via the standard era decomposition). -/
def civilFromDays (day : Int) : Int × Nat × Nat :=
  let z := day + 719468
  let era := Int.fdiv z 146097
  let doe := (z - era * 146097).toNat
  let yoe := (doe - doe / 1460 + doe / 36524 - doe / 146096) / 365
  let doy := doe - (365 * yoe + yoe / 4 - yoe / 100)
  let mp := (5 * doy + 2) / 153
  let d := doy - (153 * mp + 2) / 5 + 1
  let m := if mp < 10 then mp + 3 else mp - 9
  (era * 400 + yoe + (if m ≤ 2 then 1 else 0), m, d)

def pad2 (n : Nat) : String :=
  if n < 10 then "0" ++ toString n else toString n

def pad3 (n : Nat) : String :=
  if n < 10 then "00" ++ toString n
  else if n < 100 then "0" ++ toString n
  else toString n

def padNat (width n : Nat) : String :=
  let d := toString n
  String.mk (List.replicate (width - d.length) '0') ++ d

/-- The year field: four digits for `0`–`9999`, else a signed six-digit
expanded year. -/
def isoYear (y : Int) : String :=
  if 0 ≤ y ∧ y ≤ 9999 then padNat 4 y.toNat
  else if y < 0 then "-" ++ padNat 6 (-y).toNat
  else "+" ++ padNat 6 y.toNat

/-- `toISOString()` of the `Date` holding `ms` milliseconds since the epoch. -/
def isoOfTimestamp (ms : Int) : String :=
  let day := Int.fdiv ms 86400000
  let tod := (ms - 86400000 * day).toNat
  let ymd := civilFromDays day
  isoYear ymd.1 ++ "-" ++ pad2 ymd.2.1 ++ "-" ++ pad2 ymd.2.2 ++ "T" ++
    pad2 (tod / 3600000) ++ ":" ++ pad2 (tod % 3600000 / 60000) ++ ":" ++
    pad2 (tod % 60000 / 1000) ++ "." ++ pad3 (tod % 1000) ++ "Z"

/-! ## The `Task` entity and the store -/

/-- A JS value that can sit in a task's `createdAt` slot: a `Date` (its
timestamp) for tasks built by the constructor, or a plain string for tasks
revived by `JSON.parse`. -/
inductive JsTime : Type where
  | date : Int → JsTime
  | str : String → JsTime
deriving DecidableEq

/-- One task object: the five fields the `Task` constructor assigns. -/
structure Task : Type where
  id : String
  title : String
  category : String
  status : String
  createdAt : JsTime
deriving DecidableEq

/-- The `Task` constructor: random id, the given fields, creation stamped
`new Date()` (the current time `now`). -/
def Task.build (k : Nat) (now : Int) (title category status : String) : Task :=
  { id := makeId k
    title := title
    category := category
    status := status
    createdAt := .date now }

/-- `updateStatus(newStatus)`: overwrites `status`, nothing else. -/
def Task.updateStatus (t : Task) (newStatus : String) : Task :=
  { t with status := newStatus }

/-- `calculatePriority()`: `1 / (ageInDays + 1)` where
`ageInDays = (now - createdAt) / (1000*60*60*24)`.  On a revived task the
subtraction `Date - string` is `NaN` in JS, modelled as `none`. -/
def Task.calculatePriority (t : Task) (now : Int) : Option ℚ :=
  match t.createdAt with
  | .date c =>
    let ageInDays : ℚ := ((now : ℚ) - (c : ℚ)) / (1000 * 60 * 60 * 24)
    some (1 / (ageInDays + 1))
  | .str _ => none

/-- The string `JSON.stringify` puts in the `createdAt` slot: a `Date`
serializes through `toISOString`, a string serializes as itself. -/
def JsTime.serialized : JsTime → String
  | .date n => isoOfTimestamp n
  | .str s => s

/-- The five serialized fields of one task, in the constructor's insertion
order (which is the order `JSON.stringify` writes them). -/
def Task.pairs (t : Task) : List (String × String) :=
  [("id", t.id), ("title", t.title), ("category", t.category),
   ("status", t.status), ("createdAt", t.createdAt.serialized)]

/-- Members of an all-string-valued object, comma separated. -/
def printFieldsOf : List (String × String) → List Char
  | [] => []
  | [(k, v)] => quoteStr k ++ ':' :: quoteStr v
  | (k, v) :: ps => quoteStr k ++ ':' :: quoteStr v ++ ',' :: printFieldsOf ps

/-- `JSON.stringify` of one task object. -/
def printTask (t : Task) : List Char :=
  '{' :: (printFieldsOf t.pairs ++ ['}'])

/-- Array elements, comma separated. -/
def printTaskSeq : List Task → List Char
  | [] => []
  | [t] => printTask t
  | t :: ts => printTask t ++ ',' :: printTaskSeq ts

/-- `JSON.stringify(this.tasks)`. -/
def stringifyTasks (l : List Task) : String :=
  String.mk ('[' :: (printTaskSeq l ++ [']']))

/-- The object value `JSON.parse` recovers for one serialized task. -/
def jobjOfPairs : List (String × String) → JObj
  | [] => .onil
  | (k, v) :: ps => .ocons k (.jstr v) (jobjOfPairs ps)

def Task.json (t : Task) : JVal := .jobj (jobjOfPairs t.pairs)

def jarrOfTasks : List Task → JArr
  | [] => .anil
  | t :: ts => .acons t.json (jarrOfTasks ts)

/-- The array value `JSON.parse` recovers for the serialized task list. -/
def tasksJson (l : List Task) : JVal := .jarr (jarrOfTasks l)

/-- The task a revived plain object denotes, read off its five fields (the
shape every object written by `saveTasks` has).  `createdAt` comes back as
a plain string, not a `Date`. -/
def decodeTask : JVal → Option Task
  | .jobj (.ocons "id" (.jstr i) (.ocons "title" (.jstr ti)
      (.ocons "category" (.jstr c) (.ocons "status" (.jstr st)
      (.ocons "createdAt" (.jstr ca) .onil))))) =>
    some { id := i, title := ti, category := c, status := st, createdAt := .str ca }
  | _ => none

def decodeTaskArr : JArr → Option (List Task)
  | .anil => some []
  | .acons v a =>
    match decodeTask v, decodeTaskArr a with
    | some t, some l => some (t :: l)
    | _, _ => none

def decodeTasks : JVal → Option (List Task)
  | .jarr a => decodeTaskArr a
  | _ => none

/-- How one saved task comes back from a save/load round trip: every field
verbatim except `createdAt`, which is now the serialized string. -/
def Task.revived (t : Task) : Task :=
  { t with createdAt := .str t.createdAt.serialized }

/-! ## The `TodoApp` store -/

/-- Store state: the in-memory task list, the active filter, and the
`localStorage` slot under the fixed key `tasks`. -/
structure TodoApp : Type where
  tasks : List Task
  currentFilter : String
  storage : Option String
deriving DecidableEq

/-- The state the constructor builds before `loadTasks` runs, over a given
storage content: empty list, filter `all`. -/
def TodoApp.fresh (storage : Option String) : TodoApp :=
  { tasks := [], currentFilter := "all", storage := storage }

/-- `saveTasks()`: `localStorage.setItem('tasks', JSON.stringify(this.tasks))`. -/
def TodoApp.saveTasks (s : TodoApp) : TodoApp :=
  { s with storage := some (stringifyTasks s.tasks) }

/-- `addTask(title, category, status)`: push a new `Task`, save, render. -/
def TodoApp.addTask (s : TodoApp) (k : Nat) (now : Int)
    (title category status : String) : TodoApp :=
  TodoApp.saveTasks { s with tasks := s.tasks ++ [Task.build k now title category status] }

/-- `deleteTask(taskId)`: keep the tasks whose id differs, save, render. -/
def TodoApp.deleteTask (s : TodoApp) (taskId : String) : TodoApp :=
  TodoApp.saveTasks { s with tasks := s.tasks.filter (fun t => t.id ≠ taskId) }

/-- Update the first task carrying the id (the one `find` returns, mutated
in place). -/
def updateFirst (taskId newStatus : String) : List Task → List Task
  | [] => []
  | t :: ts =>
    if t.id = taskId then t.updateStatus newStatus :: ts
    else t :: updateFirst taskId newStatus ts

/-- `updateTaskStatus(taskId, newStatus)`: look up by id; if found, mutate
that task's status, save and render; otherwise do nothing at all. -/
def TodoApp.updateTaskStatus (s : TodoApp) (taskId newStatus : String) : TodoApp :=
  if s.tasks.any (fun t => t.id = taskId) then
    TodoApp.saveTasks { s with tasks := updateFirst taskId newStatus s.tasks }
  else s

/-- `getFilteredTasks()`: the whole list under filter `all`, else the tasks
whose category equals the filter. -/
def TodoApp.getFilteredTasks (s : TodoApp) : List Task :=
  if s.currentFilter = "all" then s.tasks
  else s.tasks.filter (fun t => t.category == s.currentFilter)

/-- Category icon table (an object literal used as a lookup table). -/
def categoryIcons : List (String × String) :=
  [("home", "🏠"), ("work", "💼"), ("study", "📚")]

/-- Status label table. -/
def statusTexts : List (String × String) :=
  [("not-started", "Не начато"), ("in-progress", "В процессе"), ("completed", "Готово")]

/-- What a property read on one of these object literals can produce: one
of the literal's own string values, a member inherited from
`Object.prototype`, or `undefined`. -/
inductive JsProp where
  | str (s : String)
  | protoMember (name : String)
  | undefined
deriving DecidableEq

/-- The property names every plain object literal inherits from
`Object.prototype`: reading any of them yields a function (or, for
`__proto__`, the prototype object itself) rather than `undefined`. -/
def objectProtoKeys : List String :=
  ["constructor", "hasOwnProperty", "isPrototypeOf", "propertyIsEnumerable",
   "toLocaleString", "toString", "valueOf", "__defineGetter__",
   "__defineSetter__", "__lookupGetter__", "__lookupSetter__", "__proto__"]

/-- Reading `obj[key]` on an object literal whose own string-valued
properties are `own`: an own property wins; otherwise the read falls
through to the `Object.prototype` chain; only a key found in neither is
`undefined`. -/
def jsGetProp (own : List (String × String)) (key : String) : JsProp :=
  match own.lookup key with
  | some v => .str v
  | none => if key ∈ objectProtoKeys then .protoMember key else .undefined

/-- Truthiness of a property read, as `||` tests it: the empty string and
`undefined` are falsy; inherited members (functions, objects) are truthy. -/
def JsProp.truthy : JsProp → Bool
  | .str s => s != ""
  | .protoMember _ => true
  | .undefined => false

/-- `getCategoryIcon`: the property read `icons[category]`, with the
`|| '📌'` fallback replacing a falsy result. -/
def TodoApp.getCategoryIcon (category : String) : JsProp :=
  if (jsGetProp categoryIcons category).truthy then jsGetProp categoryIcons category
  else .str "📌"

/-- `getStatusText`: the bare property read `texts[status]`, no fallback. -/
def TodoApp.getStatusText (status : String) : JsProp :=
  jsGetProp statusTexts status

/-! ## `loadTasks` and startup -/

/-- What `loadTasks()` does to `this.tasks`, given the storage content:
nothing when the key is absent; wholesale replacement by whatever
`JSON.parse` returns when it parses; an uncaught `SyntaxError` otherwise. -/
inductive LoadOutcome : Type where
  | keep : LoadOutcome
  | replace : JVal → LoadOutcome
  | parseError : LoadOutcome
deriving DecidableEq

/-- The guard `if (savedTasks)` tests JS truthiness, so a stored empty
string behaves like an absent key: `JSON.parse` only runs on a non-empty
stored value. -/
def loadTasks (storage : Option String) : LoadOutcome :=
  match storage with
  | none => .keep
  | some s =>
    if s = "" then .keep
    else
      match jsonParse s with
      | some v => .replace v
      | none => .parseError

/-- The task list (typed view) a fresh startup ends with, when the parsed
storage has the task-list shape: `[]` for absent storage, the decoded list
for parseable storage, `none` when the parse throws or the shape is alien. -/
def startupTasks (storage : Option String) : Option (List Task) :=
  match loadTasks storage with
  | .keep => some []
  | .replace v => decodeTasks v
  | .parseError => none

/-- Save-then-load on a task list, as the typed round trip: stringify,
parse, read the five fields back off. -/
def roundTripTasks (l : List Task) : Option (List Task) :=
  (jsonParse (stringifyTasks l)).bind decodeTasks

/-- One recorded `addTask` call: the random draw, the clock reading, and
the three arguments. -/
structure AddCall : Type where
  rnd : Nat
  now : Int
  title : String
  category : String
  status : String

/-- A store state built only by `addTask` calls from a fresh start with
empty storage. -/
def runAdds (calls : List AddCall) : TodoApp :=
  calls.foldl (fun s c => s.addTask c.rnd c.now c.title c.category c.status)
    (TodoApp.fresh none)

/-- A reachable store whose two tasks share one identifier: two `addTask`
calls whose random draws coincide (nothing prevents this). -/
def dupState : TodoApp :=
  runAdds [⟨1, 0, "t", "home", "a"⟩, ⟨1, 0, "t", "home", "a"⟩]

/-! ## Helper lemmas -/

/-- `updateFirst` walks past every task whose id misses. -/
theorem updateFirst_skip (tid st : String) :
    ∀ l1 : List Task, (∀ u ∈ l1, u.id ≠ tid) →
      ∀ l2, updateFirst tid st (l1 ++ l2) = l1 ++ updateFirst tid st l2
  | [], _, l2 => rfl
  | u :: l1, h, l2 => by
    rw [List.cons_append, updateFirst, if_neg (h u (List.mem_cons_self u l1)),
      updateFirst_skip tid st l1 (fun x hx => h x (List.mem_cons_of_mem u hx)) l2,
      List.cons_append]

/-- `updateFirst` never touches an identifier. -/
theorem updateFirst_map_id (tid st : String) :
    ∀ l : List Task, (updateFirst tid st l).map Task.id = l.map Task.id
  | [] => rfl
  | t :: ts => by
    rw [updateFirst]
    split
    · simp [Task.updateStatus]
    · simp [updateFirst_map_id tid st ts]

/-- In a list of pairwise-distinct ids, everything around an occurrence of
`t` misses `t.id`. -/
theorem ids_split {s : TodoApp} {l1 l2 : List Task} {t : Task}
    (hdec : s.tasks = l1 ++ t :: l2) (hnd : (s.tasks.map Task.id).Nodup) :
    (∀ u ∈ l1, u.id ≠ t.id) ∧ (∀ u ∈ l2, u.id ≠ t.id) := by
  rw [hdec, List.map_append, List.map_cons, List.nodup_append] at hnd
  obtain ⟨-, h2, hdisj⟩ := hnd
  rw [List.nodup_cons] at h2
  constructor
  · intro u hu he
    exact hdisj (List.mem_map_of_mem Task.id hu)
      (by rw [he]; exact List.mem_cons_self _ _)
  · intro u hu he
    exact h2.1 (by rw [← he]; exact List.mem_map_of_mem Task.id hu)

/-! ## Round-trip lemmas: the parser inverts the app's serialization -/

/-- Reading back a printed hex digit recovers its value. -/
theorem hexv_hexc (m : Nat) (h : m < 16) : hexv (hexc m) = some m := by
  interval_cases m <;> decide

/-- `dropWs` keeps a non-whitespace head in place. -/
theorem dropWs_cons {c : Char} (h : jsonWs c = false) (r : List Char) :
    dropWs (c :: r) = c :: r := by
  simp [dropWs, h]

/-- `uEsc` on the app's `\u00XY` escape decodes back the character. -/
theorem uEsc_escape (c : Char) (hc : c.toNat < 256) (rest : List Char) :
    uEsc ('0' :: '0' :: hexc (c.toNat / 16) :: hexc (c.toNat % 16) :: rest)
      = some (c, 4) := by
  show (match hexv '0', hexv '0', hexv (hexc (c.toNat / 16)),
      hexv (hexc (c.toNat % 16)) with
    | some a, some b, some c2, some d =>
      if ((a * 16 + b) * 16 + c2) * 16 + d < 55296 ∨
          57343 < ((a * 16 + b) * 16 + c2) * 16 + d then
        some (Char.ofNat (((a * 16 + b) * 16 + c2) * 16 + d), 4)
      else if ((a * 16 + b) * 16 + c2) * 16 + d ≤ 56319 then
        match lowSurEsc rest with
        | some m =>
          some (Char.ofNat (65536 +
            (((a * 16 + b) * 16 + c2) * 16 + d - 55296) * 1024 + (m - 56320)), 10)
        | none => some (loneSurrogateChar, 4)
      else some (loneSurrogateChar, 4)
    | _, _, _, _ => none) = some (c, 4)
  rw [hexv_hexc (c.toNat / 16) (by omega), hexv_hexc (c.toNat % 16) (by omega)]
  have hn : ((0 * 16 + 0) * 16 + c.toNat / 16) * 16 + c.toNat % 16 = c.toNat := by
    omega
  show (if ((0 * 16 + 0) * 16 + c.toNat / 16) * 16 + c.toNat % 16 < 55296 ∨
        57343 < ((0 * 16 + 0) * 16 + c.toNat / 16) * 16 + c.toNat % 16 then
      some (Char.ofNat (((0 * 16 + 0) * 16 + c.toNat / 16) * 16 + c.toNat % 16), 4)
    else if ((0 * 16 + 0) * 16 + c.toNat / 16) * 16 + c.toNat % 16 ≤ 56319 then
      match lowSurEsc rest with
      | some m =>
        some (Char.ofNat (65536 +
          (((0 * 16 + 0) * 16 + c.toNat / 16) * 16 + c.toNat % 16 - 55296) * 1024 +
          (m - 56320)), 10)
      | none => some (loneSurrogateChar, 4)
    else some (loneSurrogateChar, 4)) = some (c, 4)
  rw [hn, if_pos (Or.inl (show c.toNat < 55296 by omega)), Char.ofNat_toNat]

/-- Consuming one escaped character undoes `escapeOne`. -/
theorem readStr_escapeOne (c : Char) (acc rest : List Char) :
    readStr (escapeOne c ++ rest) acc = readStr rest (c :: acc) := by
  by_cases h1 : c = '"'
  · subst h1; rw [readStr.eq_def]; rfl
  by_cases h2 : c = '\\'
  · subst h2; rw [readStr.eq_def]; rfl
  by_cases h3 : c = '\x08'
  · subst h3; rw [readStr.eq_def]; rfl
  by_cases h4 : c = '\x0c'
  · subst h4; rw [readStr.eq_def]; rfl
  by_cases h5 : c = '\n'
  · subst h5; rw [readStr.eq_def]; rfl
  by_cases h6 : c = '\r'
  · subst h6; rw [readStr.eq_def]; rfl
  by_cases h7 : c = '\t'
  · subst h7; rw [readStr.eq_def]; rfl
  by_cases h8 : c.toNat < 32
  · have hesc : escapeOne c
        = ['\\', 'u', '0', '0', hexc (c.toNat / 16), hexc (c.toNat % 16)] := by
      simp [escapeOne, h1, h2, h3, h4, h5, h6, h7, h8]
    rw [hesc, List.cons_append, List.cons_append, List.cons_append, List.cons_append,
      List.cons_append, List.cons_append, readStr.eq_def]
    show (match uEsc ('0' :: '0' :: hexc (c.toNat / 16) :: hexc (c.toNat % 16) :: rest) with
      | some (ch, k) =>
        readStr (('0' :: '0' :: hexc (c.toNat / 16) :: hexc (c.toNat % 16) :: rest).drop k)
          (ch :: acc)
      | none => none) = readStr rest (c :: acc)
    rw [uEsc_escape c (by omega) rest]
    rfl
  · have hesc : escapeOne c = [c] := by
      simp [escapeOne, h1, h2, h3, h4, h5, h6, h7, h8]
    rw [hesc, List.singleton_append, readStr.eq_def]
    simp only [if_neg h1, if_neg h2, if_neg h8]

/-- Consuming a whole escaped run stops exactly at the closing quote. -/
theorem readStr_escapeAll :
    ∀ (cs acc rest : List Char),
      readStr (escapeAll cs ++ '"' :: rest) acc
        = some (String.mk (acc.reverse ++ cs), rest)
  | [], acc, rest => by
    rw [escapeAll, List.nil_append, readStr.eq_def]
    simp
  | c :: cs, acc, rest => by
    rw [escapeAll, List.append_assoc, readStr_escapeOne,
      readStr_escapeAll cs (c :: acc) rest]
    simp

/-- A quoted, escaped string body reads back as the original string. -/
theorem readStr_quoted (s : String) (rest : List Char) :
    readStr (escapeAll s.toList ++ '"' :: rest) [] = some (s, rest) := by
  rw [readStr_escapeAll]
  simp

/-! ### One-step unfoldings of the parser -/

theorem readJ_step (f : Nat) (cs : List Char) :
    readJ (f + 1) cs = dispatch f (dropWs cs) := by
  rw [readJ.eq_def]

theorem dispatch_quote (f : Nat) (r : List Char) :
    dispatch f ('"' :: r) = strResult (readStr r []) := by
  rw [dispatch.eq_def]
  rfl

theorem dispatch_bracket (f : Nat) (r : List Char) :
    dispatch f ('[' :: r) = arrBody f (dropWs r) := by
  rw [dispatch.eq_def]
  rfl

theorem dispatch_brace (f : Nat) (r : List Char) :
    dispatch f ('{' :: r) = objBody f (dropWs r) := by
  rw [dispatch.eq_def]
  rfl

theorem arrBody_task (f : Nat) (r : List Char) :
    arrBody f ('{' :: r) = arrResult (readElems f ('{' :: r)) := by
  rw [arrBody.eq_def]
  rfl

theorem objBody_key (f : Nat) (r : List Char) :
    objBody f ('"' :: r) = objResult (readFields f ('"' :: r)) := by
  rw [objBody.eq_def]
  rfl

theorem readElems_step (f : Nat) (cs : List Char) :
    readElems (f + 1) cs = elemCont f (readJ f cs) := by
  rw [readElems.eq_def]

theorem elemCont_some (f : Nat) (v : JVal) (r : List Char) :
    elemCont f (some (v, r)) = elemSep f v (dropWs r) := by
  rw [elemCont.eq_def]

theorem elemSep_comma (f : Nat) (v : JVal) (r : List Char) :
    elemSep f v (',' :: r) = arrCons v (readElems f r) := by
  rw [elemSep.eq_def]
  rfl

theorem elemSep_close (f : Nat) (v : JVal) (r : List Char) :
    elemSep f v (']' :: r) = some (.acons v .anil, r) := by
  rw [elemSep.eq_def]
  rfl

theorem readFields_step (f : Nat) (cs : List Char) :
    readFields (f + 1) cs = fieldKey f (dropWs cs) := by
  rw [readFields.eq_def]

theorem fieldKey_quote (f : Nat) (r : List Char) :
    fieldKey f ('"' :: r) = fieldColon f (readStr r []) := by
  rw [fieldKey.eq_def]
  rfl

theorem fieldColon_some (f : Nat) (k : String) (r : List Char) :
    fieldColon f (some (k, r)) = fieldVal f k (dropWs r) := by
  rw [fieldColon.eq_def]

theorem fieldVal_colon (f : Nat) (k : String) (r : List Char) :
    fieldVal f k (':' :: r) = fieldAfter f k (readJ f r) := by
  rw [fieldVal.eq_def]
  rfl

theorem fieldAfter_some (f : Nat) (k : String) (v : JVal) (r : List Char) :
    fieldAfter f k (some (v, r)) = fieldSep f k v (dropWs r) := by
  rw [fieldAfter.eq_def]

theorem fieldSep_comma (f : Nat) (k : String) (v : JVal) (r : List Char) :
    fieldSep f k v (',' :: r) = objCons k v (readFields f r) := by
  rw [fieldSep.eq_def]
  rfl

theorem fieldSep_close (f : Nat) (k : String) (v : JVal) (r : List Char) :
    fieldSep f k v ('}' :: r) = some (.ocons k v .onil, r) := by
  rw [fieldSep.eq_def]
  rfl

/-! ### The parser inverts the printed task list -/

/-- A printed string value parses as that `jstr`. -/
theorem readJ_str (f : Nat) (v : String) (rest : List Char) :
    readJ (f + 1) (quoteStr v ++ rest) = some (.jstr v, rest) := by
  have h : quoteStr v ++ rest = '"' :: (escapeAll v.toList ++ '"' :: rest) := by
    simp [quoteStr]
  rw [h, readJ_step, dropWs_cons (by decide), dispatch_quote, readStr_quoted]
  rfl

/-- Printed string-valued members parse back as the matching object chain. -/
theorem readFields_pairs :
    ∀ (ps : List (String × String)) (rest : List Char) (f : Nat),
      ps ≠ [] → ps.length ≤ f →
      readFields (f + 1) (printFieldsOf ps ++ '}' :: rest) = some (jobjOfPairs ps, rest)
  | [], _, _, h, _ => absurd rfl h
  | [(k, v)], rest, f, _, hf => by
    obtain ⟨g, rfl⟩ : ∃ g, f = g + 1 := ⟨f - 1, by simp at hf; omega⟩
    have h1 : printFieldsOf [(k, v)] ++ '}' :: rest
        = '"' :: (escapeAll k.toList ++ '"' :: (':' :: (quoteStr v ++ '}' :: rest))) := by
      simp [printFieldsOf, quoteStr]
    rw [h1, readFields_step, dropWs_cons (by decide), fieldKey_quote, readStr_quoted,
      fieldColon_some, dropWs_cons (by decide), fieldVal_colon, readJ_str,
      fieldAfter_some, dropWs_cons (by decide), fieldSep_close]
    rfl
  | (k, v) :: p2 :: ps, rest, f, _, hf => by
    obtain ⟨g, rfl⟩ : ∃ g, f = g + 1 := ⟨f - 1, by simp at hf; omega⟩
    have h1 : printFieldsOf ((k, v) :: p2 :: ps) ++ '}' :: rest
        = '"' :: (escapeAll k.toList ++ '"' :: (':' :: (quoteStr v ++ ',' ::
            (printFieldsOf (p2 :: ps) ++ '}' :: rest)))) := by
      simp [printFieldsOf, quoteStr]
    rw [h1, readFields_step, dropWs_cons (by decide), fieldKey_quote, readStr_quoted,
      fieldColon_some, dropWs_cons (by decide), fieldVal_colon, readJ_str,
      fieldAfter_some, dropWs_cons (by decide), fieldSep_comma,
      readFields_pairs (p2 :: ps) rest g (by simp) (by simp at hf ⊢; omega)]
    rfl

/-- A non-empty printed member list starts with the key's opening quote. -/
theorem printFields_head (ps : List (String × String)) (hp : ps ≠ []) (X : List Char) :
    ∃ Z, printFieldsOf ps ++ X = '"' :: Z := by
  cases ps with
  | nil => cases hp rfl
  | cons p ps =>
    obtain ⟨k, v⟩ := p
    cases ps with
    | nil =>
      exact ⟨escapeAll k.toList ++ '"' :: (':' :: (quoteStr v ++ X)),
        by simp [printFieldsOf, quoteStr]⟩
    | cons q qs =>
      exact ⟨escapeAll k.toList ++ '"' :: (':' :: (quoteStr v ++ ',' ::
          (printFieldsOf (q :: qs) ++ X))),
        by simp [printFieldsOf, quoteStr]⟩

/-- A printed task object parses back as its JSON object value. -/
theorem readJ_task (t : Task) (rest : List Char) (f : Nat) (hf : 6 ≤ f) :
    readJ (f + 1) (printTask t ++ rest) = some (t.json, rest) := by
  have hsplit : printTask t ++ rest = '{' :: (printFieldsOf t.pairs ++ '}' :: rest) := by
    simp [printTask]
  rw [hsplit, readJ_step, dropWs_cons (by decide), dispatch_brace]
  obtain ⟨Z, hZ⟩ := printFields_head t.pairs (by simp [Task.pairs]) ('}' :: rest)
  obtain ⟨g, rfl⟩ : ∃ g, f = g + 1 := ⟨f - 1, by omega⟩
  rw [hZ, dropWs_cons (by decide), objBody_key, ← hZ,
    readFields_pairs t.pairs rest g (by simp [Task.pairs]) (by simp [Task.pairs]; omega)]
  rfl

/-- Printed array elements parse back as the matching element chain. -/
theorem readElems_tasks :
    ∀ (l : List Task) (rest : List Char) (f : Nat), l ≠ [] → 8 * l.length ≤ f + 1 →
      readElems (f + 1) (printTaskSeq l ++ ']' :: rest) = some (jarrOfTasks l, rest)
  | [], _, _, h, _ => absurd rfl h
  | [t], rest, f, _, hf => by
    obtain ⟨g, rfl⟩ : ∃ g, f = g + 1 := ⟨f - 1, by simp at hf; omega⟩
    have h1 : printTaskSeq [t] ++ ']' :: rest = printTask t ++ ']' :: rest := by
      simp [printTaskSeq]
    rw [h1, readElems_step, readJ_task t (']' :: rest) g (by simp at hf; omega), elemCont_some,
      dropWs_cons (by decide), elemSep_close]
    rfl
  | t :: t2 :: ts, rest, f, _, hf => by
    obtain ⟨g, rfl⟩ : ∃ g, f = g + 1 := ⟨f - 1, by simp at hf; omega⟩
    have h1 : printTaskSeq (t :: t2 :: ts) ++ ']' :: rest
        = printTask t ++ ',' :: (printTaskSeq (t2 :: ts) ++ ']' :: rest) := by
      simp [printTaskSeq]
    rw [h1, readElems_step, readJ_task t _ g (by simp at hf; omega), elemCont_some,
      dropWs_cons (by decide), elemSep_comma,
      readElems_tasks (t2 :: ts) rest g (by simp) (by simp at hf ⊢; omega)]
    rfl

/-- The whole printed task list parses back as its JSON array value. -/
theorem readJ_taskList (l : List Task) (rest : List Char) (f : Nat)
    (hf : 8 * l.length + 1 ≤ f) :
    readJ (f + 1) ('[' :: (printTaskSeq l ++ ']' :: rest)) = some (tasksJson l, rest) := by
  rw [readJ_step, dropWs_cons (by decide), dispatch_bracket]
  cases l with
  | nil =>
    rw [show printTaskSeq [] ++ ']' :: rest = ']' :: rest from rfl,
      dropWs_cons (by decide), arrBody.eq_def]
    rfl
  | cons t ts =>
    obtain ⟨Z, hZ⟩ : ∃ Z, printTaskSeq (t :: ts) ++ ']' :: rest = '{' :: Z := by
      cases ts with
      | nil =>
        exact ⟨printFieldsOf t.pairs ++ '}' :: ']' :: rest,
          by simp [printTaskSeq, printTask]⟩
      | cons t2 ts2 =>
        exact ⟨printFieldsOf t.pairs ++ '}' :: ',' :: (printTaskSeq (t2 :: ts2) ++ ']' :: rest),
          by simp [printTaskSeq, printTask]⟩
    obtain ⟨g, rfl⟩ : ∃ g, f = g + 1 := ⟨f - 1, by simp at hf; omega⟩
    rw [hZ, dropWs_cons (by decide), arrBody_task, ← hZ,
      readElems_tasks (t :: ts) rest g (by simp) (by simp at hf ⊢; omega)]
    rfl

/-- Eight fuel units per task plus the brackets always fit in the printed
length, so `jsonParse`'s fuel suffices. -/
theorem printTask_len (t : Task) : 8 ≤ (printTask t).length := by
  simp [printTask, Task.pairs, printFieldsOf, quoteStr]
  omega

theorem printTaskSeq_len : ∀ l : List Task, 8 * l.length ≤ (printTaskSeq l).length + 1
  | [] => by simp [printTaskSeq]
  | [t] => by
    have h := printTask_len t
    rw [printTaskSeq]
    simp
    omega
  | t :: t2 :: ts => by
    have h1 := printTask_len t
    have h2 := printTaskSeq_len (t2 :: ts)
    rw [printTaskSeq]
    · simp at h2 ⊢
      omega
    · simp

/-- `JSON.parse` inverts `JSON.stringify` on every serialized task list. -/
theorem jsonParse_stringify (l : List Task) :
    jsonParse (stringifyTasks l) = some (tasksJson l) := by
  have hlen2 : (stringifyTasks l).length = (printTaskSeq l).length + 2 := by
    show ('[' :: (printTaskSeq l ++ [']'])).length = _
    simp
  have hfuel : 8 * l.length + 1 ≤ (printTaskSeq l).length + 2 := by
    have := printTaskSeq_len l
    omega
  rw [jsonParse, hlen2]
  rw [show (stringifyTasks l).toList = '[' :: (printTaskSeq l ++ ']' :: []) from rfl]
  rw [readJ_taskList l [] ((printTaskSeq l).length + 2) hfuel]
  rfl

/-! ### Decoding the parsed value back into tasks -/

/-- Reading the five fields off a parsed task object yields the saved task
with `createdAt` demoted to its serialized string. -/
theorem decodeTask_json (t : Task) : decodeTask t.json = some t.revived := by
  cases t
  rfl

theorem decodeTasks_json : ∀ l : List Task,
    decodeTasks (tasksJson l) = some (l.map Task.revived)
  | [] => rfl
  | t :: ts => by
    have ih : decodeTaskArr (jarrOfTasks ts) = some (ts.map Task.revived) :=
      decodeTasks_json ts
    show decodeTaskArr (.acons t.json (jarrOfTasks ts)) = _
    rw [decodeTaskArr, decodeTask_json, ih]
    rfl

/-- The typed round trip: stringify, parse, read the fields back. -/
theorem roundTripTasks_eq (l : List Task) :
    roundTripTasks l = some (l.map Task.revived) := by
  rw [roundTripTasks, jsonParse_stringify, Option.some_bind, decodeTasks_json]

/-- A fresh store fold of `addTask` calls either never saved (no calls) or
holds exactly the serialization of its tasks. -/
theorem foldAdds_inv : ∀ (cs : List AddCall) (s : TodoApp),
    s.storage = some (stringifyTasks s.tasks) ∨ (s.storage = none ∧ s.tasks = []) →
    (cs.foldl (fun s c => s.addTask c.rnd c.now c.title c.category c.status) s).storage
      = some (stringifyTasks
          (cs.foldl (fun s c => s.addTask c.rnd c.now c.title c.category c.status) s).tasks)
      ∨ ((cs.foldl (fun s c => s.addTask c.rnd c.now c.title c.category c.status) s).storage
          = none
        ∧ (cs.foldl (fun s c => s.addTask c.rnd c.now c.title c.category c.status) s).tasks
          = [])
  | [], _, h => h
  | _ :: cs, _, _ => foldAdds_inv cs _ (Or.inl rfl)

/-- A printed task list is never the empty string. -/
theorem stringifyTasks_ne_empty (l : List Task) : stringifyTasks l ≠ "" := by
  intro h
  have : ('[' :: (printTaskSeq l ++ [']'])).length = (0 : Nat) := by
    rw [show ('[' :: (printTaskSeq l ++ [']'])) = (stringifyTasks l).toList from rfl, h]
    rfl
  simp at this

/-! ### Concrete parses, via the step lemmas (the parser is compiled by
well-founded recursion, so these are proved by unfolding, not by `decide`) -/

theorem jsonParse_empty : jsonParse "" = none := by
  rw [jsonParse]
  show (match readJ (0 + 1) [] with
    | some (v, rest) => if dropWs rest = [] then some v else none
    | none => none) = none
  rw [readJ_step, show dropWs [] = [] from rfl, dispatch.eq_def]

theorem jsonParse_true : jsonParse "true" = some (.jbool true) := by
  rw [jsonParse]
  show (match readJ (4 + 1) ['t', 'r', 'u', 'e'] with
    | some (v, rest) => if dropWs rest = [] then some v else none
    | none => none) = some (.jbool true)
  rw [readJ_step, show dropWs ['t', 'r', 'u', 'e'] = ['t', 'r', 'u', 'e'] from rfl,
    dispatch.eq_def]
  rfl

theorem jsonParse_x : jsonParse "x" = none := by
  rw [jsonParse]
  show (match readJ (1 + 1) ['x'] with
    | some (v, rest) => if dropWs rest = [] then some v else none
    | none => none) = none
  rw [readJ_step, show dropWs ['x'] = ['x'] from rfl, dispatch.eq_def]
  rfl

/-- The escape `\uE000` (a valid scalar at or above the surrogate range)
decodes to the character U+E000. -/
theorem readStr_uE000 :
    readStr ['\\', 'u', 'E', '0', '0', '0', '"'] [] = some ("\uE000", []) := by
  rw [readStr.eq_def]
  show (match uEsc ['E', '0', '0', '0', '"'] with
    | some (ch, k) => readStr (['E', '0', '0', '0', '"'].drop k) (ch :: [])
    | none => none) = some ("\uE000", [])
  rw [show uEsc ['E', '0', '0', '0', '"'] = some ('\uE000', 4) from rfl]
  show readStr ['"'] ['\uE000'] = some ("\uE000", [])
  rw [readStr.eq_def]
  rfl

/-- The document `"\uE000"` is valid JSON: it parses to the one-character
string U+E000. -/
theorem jsonParse_uE000 :
    jsonParse "\"\\uE000\"" = some (.jstr "\uE000") := by
  rw [jsonParse]
  show (match readJ (8 + 1) ['"', '\\', 'u', 'E', '0', '0', '0', '"'] with
    | some (v, rest) => if dropWs rest = [] then some v else none
    | none => none) = some (.jstr "\uE000")
  rw [readJ_step,
    show dropWs ['"', '\\', 'u', 'E', '0', '0', '0', '"']
      = ['"', '\\', 'u', 'E', '0', '0', '0', '"'] from rfl,
    dispatch_quote, readStr_uE000]
  rfl

/-- The surrogate pair `\uD83D\uDE00` decodes to the single astral
character U+1F600. -/
theorem readStr_surrogatePair :
    readStr ['\\', 'u', 'D', '8', '3', 'D', '\\', 'u', 'D', 'E', '0', '0', '"'] []
      = some ("😀", []) := by
  rw [readStr.eq_def]
  show (match uEsc ['D', '8', '3', 'D', '\\', 'u', 'D', 'E', '0', '0', '"'] with
    | some (ch, k) =>
      readStr (['D', '8', '3', 'D', '\\', 'u', 'D', 'E', '0', '0', '"'].drop k) (ch :: [])
    | none => none) = some ("😀", [])
  rw [show uEsc ['D', '8', '3', 'D', '\\', 'u', 'D', 'E', '0', '0', '"']
      = some ('😀', 10) from rfl]
  show readStr ['"'] ['😀'] = some ("😀", [])
  rw [readStr.eq_def]
  rfl

/-- The document `"\uD83D\uDE00"` is valid JSON: the surrogate pair parses
to the one-character string U+1F600. -/
theorem jsonParse_surrogatePair :
    jsonParse "\"\\uD83D\\uDE00\"" = some (.jstr "😀") := by
  rw [jsonParse]
  show (match readJ (14 + 1)
      ['"', '\\', 'u', 'D', '8', '3', 'D', '\\', 'u', 'D', 'E', '0', '0', '"'] with
    | some (v, rest) => if dropWs rest = [] then some v else none
    | none => none) = some (.jstr "😀")
  rw [readJ_step,
    show dropWs ['"', '\\', 'u', 'D', '8', '3', 'D', '\\', 'u', 'D', 'E', '0', '0', '"']
      = ['"', '\\', 'u', 'D', '8', '3', 'D', '\\', 'u', 'D', 'E', '0', '0', '"'] from rfl,
    dispatch_quote, readStr_surrogatePair]
  rfl

/-! ## Claim theorems -/

/-- C2: `addTask(title, category, status)` grows the list by exactly one,
leaves every previously present task unchanged in place, and the appended
task carries exactly the requested title, category and status (with the
generated id and the creation stamp). -/
theorem addTask_spec (s : TodoApp) (k : Nat) (now : Int)
    (title category status : String) :
    (s.addTask k now title category status).tasks.length = s.tasks.length + 1 ∧
    (∀ i, i < s.tasks.length →
      (s.addTask k now title category status).tasks[i]? = s.tasks[i]?) ∧
    (s.addTask k now title category status).tasks[s.tasks.length]? =
      some { id := makeId k, title := title, category := category,
             status := status, createdAt := JsTime.date now } := by
  refine ⟨by simp [TodoApp.addTask, TodoApp.saveTasks], ?_, ?_⟩
  · intro i hi
    simp only [TodoApp.addTask, TodoApp.saveTasks]
    exact List.getElem?_append_left hi
  · simp [TodoApp.addTask, TodoApp.saveTasks, Task.build,
      List.getElem?_append_right (le_refl s.tasks.length)]

/-- Witness for `addTask_spec` at a one-task store. -/
theorem addTask_spec_witness :
    ((TodoApp.mk [Task.build 2 0 "x" "work" "completed"] "all" none).addTask
        1 5 "a" "home" "not-started").tasks[0]?
      = (TodoApp.mk [Task.build 2 0 "x" "work" "completed"] "all" none).tasks[0]? :=
  (addTask_spec (TodoApp.mk [Task.build 2 0 "x" "work" "completed"] "all" none)
    1 5 "a" "home" "not-started").2.1 0 (by decide)

/-- C3 counterexample: in the reachable store `dupState` both tasks carry
the same identifier, and `deleteTask` of that identifier removes both, so
the length drops by two, not by exactly one as the claim states. -/
theorem deleteTask_dup_counterexample :
    dupState.tasks.length = 2 ∧
    (dupState.tasks.map Task.id).all (fun i => i == makeId 1) = true ∧
    (dupState.deleteTask (makeId 1)).tasks.length = 0 := by decide

/-- C3 amended: `deleteTask` filters on the identifier, so when the store's
identifiers are pairwise distinct (which the code does not enforce) a
present id loses exactly its own entry with all others left in order, and
an absent id changes nothing; with duplicated ids every bearer is removed. -/
theorem deleteTask_spec (s : TodoApp) (tid : String) :
    ((∀ t ∈ s.tasks, t.id ≠ tid) → (s.deleteTask tid).tasks = s.tasks) ∧
    (∀ t, t ∈ s.tasks → t.id = tid → (s.tasks.map Task.id).Nodup →
      (s.deleteTask tid).tasks.length + 1 = s.tasks.length ∧
      (∀ l1 l2, s.tasks = l1 ++ t :: l2 → (s.deleteTask tid).tasks = l1 ++ l2)) := by
  have htasks : (s.deleteTask tid).tasks
      = s.tasks.filter (fun t => decide (t.id ≠ tid)) := rfl
  constructor
  · intro h
    rw [htasks]
    exact List.filter_eq_self.mpr fun u hu => decide_eq_true (h u hu)
  · intro t hmem hid hnd
    have key : ∀ l1 l2, s.tasks = l1 ++ t :: l2 → (s.deleteTask tid).tasks = l1 ++ l2 := by
      intro l1 l2 hdec
      obtain ⟨hl1, hl2⟩ := ids_split hdec hnd
      rw [htasks, hdec, List.filter_append, List.filter_cons,
        List.filter_eq_self.mpr fun u hu => decide_eq_true (hid ▸ hl1 u hu),
        List.filter_eq_self.mpr fun u hu => decide_eq_true (hid ▸ hl2 u hu)]
      simp [hid]
    obtain ⟨l1, l2, hdec⟩ := List.append_of_mem hmem
    refine ⟨?_, key⟩
    rw [key l1 l2 hdec, hdec]
    simp [Nat.add_comm, Nat.add_assoc, Nat.add_left_comm]

/-- Witness for `deleteTask_spec` at a one-task store. -/
theorem deleteTask_spec_witness :
    ((TodoApp.mk [Task.build 1 0 "a" "home" "x"] "all" none).deleteTask
        (makeId 1)).tasks.length + 1
      = (TodoApp.mk [Task.build 1 0 "a" "home" "x"] "all" none).tasks.length :=
  ((deleteTask_spec (TodoApp.mk [Task.build 1 0 "a" "home" "x"] "all" none)
      (makeId 1)).2 (Task.build 1 0 "a" "home" "x")
    (List.mem_singleton.mpr rfl) rfl (by decide)).1

/-- C4 counterexample: in `dupState` both tasks bear the present identifier
with status `a`, yet `updateTaskStatus` rewrites only the first one, so a
task with that identifier keeps its old status, against the claim. -/
theorem updateTaskStatus_dup_counterexample :
    dupState.tasks.length = 2 ∧
    (dupState.tasks.map Task.id).all (fun i => i == makeId 1) = true ∧
    dupState.tasks.map Task.status = ["a", "a"] ∧
    (dupState.updateTaskStatus (makeId 1) "b").tasks.map Task.status = ["b", "a"] := by
  decide

/-- C4 amended: for pairwise-distinct identifiers (not enforced by the
code), `updateTaskStatus` on a present id rewrites exactly that task's
status — every other task and every other field kept, filter untouched —
while an absent id leaves the whole state (storage included) unchanged;
with duplicated ids only the first bearer is rewritten. -/
theorem updateTaskStatus_spec (s : TodoApp) (tid st : String) :
    ((∀ t ∈ s.tasks, t.id ≠ tid) → s.updateTaskStatus tid st = s) ∧
    (∀ l1 t l2, s.tasks = l1 ++ t :: l2 → t.id = tid → (s.tasks.map Task.id).Nodup →
      (s.updateTaskStatus tid st).tasks = l1 ++ t.updateStatus st :: l2 ∧
      (s.updateTaskStatus tid st).currentFilter = s.currentFilter) ∧
    (∀ t : Task, (t.updateStatus st).status = st ∧ (t.updateStatus st).id = t.id ∧
      (t.updateStatus st).title = t.title ∧ (t.updateStatus st).category = t.category ∧
      (t.updateStatus st).createdAt = t.createdAt) := by
  refine ⟨?_, ?_, fun t => ⟨rfl, rfl, rfl, rfl, rfl⟩⟩
  · intro h
    rw [TodoApp.updateTaskStatus, if_neg]
    simp only [List.any_eq_true, decide_eq_true_eq, not_exists, not_and]
    exact h
  · intro l1 t l2 hdec hid hnd
    have hany : s.tasks.any (fun t => t.id = tid) = true := by
      simp only [List.any_eq_true, decide_eq_true_eq]
      exact ⟨t, by rw [hdec]; simp, hid⟩
    obtain ⟨hl1, _⟩ := ids_split hdec hnd
    rw [TodoApp.updateTaskStatus, if_pos hany]
    refine ⟨?_, rfl⟩
    show updateFirst tid st s.tasks = _
    rw [hdec, updateFirst_skip tid st l1 (fun u hu => hid ▸ hl1 u hu) (t :: l2),
      updateFirst, if_pos hid]

/-- Witness for `updateTaskStatus_spec` at a one-task store. -/
theorem updateTaskStatus_spec_witness :
    ((TodoApp.mk [Task.build 1 0 "a" "home" "x"] "all" none).updateTaskStatus
        (makeId 1) "completed").tasks
      = [] ++ (Task.build 1 0 "a" "home" "x").updateStatus "completed" :: [] :=
  (((updateTaskStatus_spec (TodoApp.mk [Task.build 1 0 "a" "home" "x"] "all" none)
      (makeId 1) "completed").2.1) [] (Task.build 1 0 "a" "home" "x") []
    rfl rfl (by decide)).1

/-- C5: every completed mutation leaves the storage slot holding exactly
the serialization of the current in-memory list — `addTask` and
`deleteTask` unconditionally, `updateTaskStatus` whenever the id was
present (when absent it performs no write at all, see C4's theorem). -/
theorem storageInvariant_spec (s : TodoApp) (k : Nat) (now : Int)
    (title category status tid st : String) :
    (s.addTask k now title category status).storage
      = some (stringifyTasks (s.addTask k now title category status).tasks) ∧
    ((∃ t ∈ s.tasks, t.id = tid) →
      (s.updateTaskStatus tid st).storage
        = some (stringifyTasks (s.updateTaskStatus tid st).tasks)) ∧
    (s.deleteTask tid).storage
      = some (stringifyTasks (s.deleteTask tid).tasks) := by
  refine ⟨rfl, ?_, rfl⟩
  rintro ⟨t, ht, hid⟩
  have hany : s.tasks.any (fun t => t.id = tid) = true := by
    simp only [List.any_eq_true, decide_eq_true_eq]
    exact ⟨t, ht, hid⟩
  simp [TodoApp.updateTaskStatus, hany, TodoApp.saveTasks]

/-- Witness for `storageInvariant_spec` at a one-task store. -/
theorem storageInvariant_spec_witness :
    ((TodoApp.mk [Task.build 1 0 "a" "home" "x"] "all" none).updateTaskStatus
        (makeId 1) "completed").storage
      = some (stringifyTasks
          ((TodoApp.mk [Task.build 1 0 "a" "home" "x"] "all" none).updateTaskStatus
            (makeId 1) "completed").tasks) :=
  (storageInvariant_spec (TodoApp.mk [Task.build 1 0 "a" "home" "x"] "all" none)
      0 0 "" "" "" (makeId 1) "completed").2.1
    ⟨Task.build 1 0 "a" "home" "x", List.mem_singleton.mpr rfl, rfl⟩

/-- C6: `getFilteredTasks` is a pure read (it is a function of the state,
mutating nothing); under filter `all` it returns the whole list, and under
any other filter exactly the order-preserving subsequence of tasks whose
category equals the filter. -/
theorem getFilteredTasks_spec (s : TodoApp) :
    (s.currentFilter = "all" → s.getFilteredTasks = s.tasks) ∧
    (s.currentFilter ≠ "all" →
      s.getFilteredTasks = s.tasks.filter (fun t => t.category == s.currentFilter) ∧
      s.getFilteredTasks.Sublist s.tasks ∧
      (∀ t, t ∈ s.getFilteredTasks ↔ t ∈ s.tasks ∧ t.category = s.currentFilter)) := by
  constructor
  · intro h
    simp [TodoApp.getFilteredTasks, h]
  · intro h
    have he : s.getFilteredTasks = s.tasks.filter (fun t => t.category == s.currentFilter) := by
      simp [TodoApp.getFilteredTasks, h]
    refine ⟨he, he ▸ List.filter_sublist _, fun t => ?_⟩
    rw [he, List.mem_filter]
    simp

/-- Witness for `getFilteredTasks_spec` at a two-task store under filter
`work`. -/
theorem getFilteredTasks_spec_witness :
    (TodoApp.mk [Task.build 1 0 "a" "work" "x", Task.build 2 0 "b" "home" "x"]
        "work" none).getFilteredTasks
      = [Task.build 1 0 "a" "work" "x", Task.build 2 0 "b" "home" "x"].filter
          (fun t => t.category == "work") :=
  ((getFilteredTasks_spec (TodoApp.mk
      [Task.build 1 0 "a" "work" "x", Task.build 2 0 "b" "home" "x"] "work" none)).2
    (by decide)).1

/-- C7: on any constructor-built task (`createdAt` a `Date`),
`calculatePriority` returns `1 / (ageInDays + 1)` exactly; at a common
observation time the earlier-created of two tasks has strictly smaller
priority; and the value lies in `(0, 1]` whenever the age is non-negative. -/
theorem calculatePriority_spec (t1 t2 : Task) (c1 c2 now : Int)
    (h1 : t1.createdAt = JsTime.date c1) (h2 : t2.createdAt = JsTime.date c2) :
    t1.calculatePriority now
      = some (1 / (((now : ℚ) - (c1 : ℚ)) / (1000 * 60 * 60 * 24) + 1)) ∧
    (c1 < c2 → c2 ≤ now →
      ∃ p1 p2, t1.calculatePriority now = some p1 ∧
        t2.calculatePriority now = some p2 ∧ p1 < p2) ∧
    (c1 ≤ now → ∃ p, t1.calculatePriority now = some p ∧ 0 < p ∧ p ≤ 1) := by
  have hN : (0 : ℚ) < 1000 * 60 * 60 * 24 := by norm_num
  refine ⟨by simp [Task.calculatePriority, h1], ?_, ?_⟩
  · intro hlt hle
    have hc : (c1 : ℚ) < (c2 : ℚ) := by exact_mod_cast hlt
    have hn : (c2 : ℚ) ≤ (now : ℚ) := by exact_mod_cast hle
    have ha2 : 0 ≤ ((now : ℚ) - c2) / (1000 * 60 * 60 * 24) :=
      div_nonneg (by linarith) hN.le
    have hlt2 : ((now : ℚ) - c2) / (1000 * 60 * 60 * 24)
        < ((now : ℚ) - c1) / (1000 * 60 * 60 * 24) := by
      apply div_lt_div_of_pos_right ?_ hN
      linarith
    refine ⟨1 / (((now : ℚ) - (c1 : ℚ)) / (1000 * 60 * 60 * 24) + 1),
      1 / (((now : ℚ) - (c2 : ℚ)) / (1000 * 60 * 60 * 24) + 1),
      by simp [Task.calculatePriority, h1],
      by simp [Task.calculatePriority, h2], ?_⟩
    exact one_div_lt_one_div_of_lt (by linarith) (by linarith)
  · intro hle
    have hn : (c1 : ℚ) ≤ (now : ℚ) := by exact_mod_cast hle
    have ha : 0 ≤ ((now : ℚ) - c1) / (1000 * 60 * 60 * 24) :=
      div_nonneg (by linarith) hN.le
    refine ⟨1 / (((now : ℚ) - (c1 : ℚ)) / (1000 * 60 * 60 * 24) + 1),
      by simp [Task.calculatePriority, h1], one_div_pos.mpr (by linarith), ?_⟩
    rw [div_le_one (by linarith)]
    linarith

/-- Witness for `calculatePriority_spec`: a task created at the epoch
against one created a day later, observed at the later creation time. -/
theorem calculatePriority_spec_witness :
    ∃ p1 p2, (Task.build 1 0 "a" "home" "x").calculatePriority 86400000 = some p1 ∧
      (Task.build 2 86400000 "b" "home" "x").calculatePriority 86400000 = some p2 ∧
      p1 < p2 :=
  (calculatePriority_spec (Task.build 1 0 "a" "home" "x")
      (Task.build 2 86400000 "b" "home" "x") 0 86400000 86400000 rfl rfl).2.1
    (by decide) (by decide)

/-- C9 counterexample: the random draw `2^52` models `Math.random()`
returning `0.5`, whose base-36 rendering is `0.i`; `substring(2, 11)` of
that is the single character `i`, so an identifier need not have nine
characters. -/
theorem makeId_length_counterexample :
    makeId 4503599627370496 = "i" ∧ (makeId 4503599627370496).length ≠ 9 := by
  decide

/-- C9 amended: an identifier has at most nine characters (exactly nine
only when the random fraction's base-36 expansion is long enough), and no
operation after construction rewrites an identifier: `updateStatus` keeps
it, `updateTaskStatus` preserves every id in place, and `addTask` keeps all
existing ids, appending the new one. -/
theorem makeId_spec (k : Nat) (t : Task) (st : String) (s : TodoApp)
    (tid title category status : String) (now : Int) :
    (makeId k).length ≤ 9 ∧
    (t.updateStatus st).id = t.id ∧
    (s.updateTaskStatus tid st).tasks.map Task.id = s.tasks.map Task.id ∧
    (s.addTask k now title category status).tasks.map Task.id
      = s.tasks.map Task.id ++ [makeId k] := by
  refine ⟨?_, rfl, ?_, by simp [TodoApp.addTask, TodoApp.saveTasks, Task.build]⟩
  · have h : (makeId k).length = (((randToString36 k).toList.drop 2).take 9).length := rfl
    rw [h, List.length_take]
    exact min_le_left _ _
  · rw [TodoApp.updateTaskStatus]
    split
    · exact updateFirst_map_id tid st s.tasks
    · rfl

/-- A status outside the three known ones misses the own-property table. -/
theorem statusTexts_miss {st : String} (h1 : st ≠ "not-started")
    (h2 : st ≠ "in-progress") (h3 : st ≠ "completed") :
    statusTexts.lookup st = none := by
  simp [statusTexts, List.lookup, beq_eq_false_iff_ne.mpr h1,
    beq_eq_false_iff_ne.mpr h2, beq_eq_false_iff_ne.mpr h3]

/-- A category outside the three known ones misses the own-property table. -/
theorem categoryIcons_miss {c : String} (h1 : c ≠ "home")
    (h2 : c ≠ "work") (h3 : c ≠ "study") :
    categoryIcons.lookup c = none := by
  simp [categoryIcons, List.lookup, beq_eq_false_iff_ne.mpr h1,
    beq_eq_false_iff_ne.mpr h2, beq_eq_false_iff_ne.mpr h3]

/-- C10 counterexample: `constructor` is outside both tables, yet the
object literals inherit it from `Object.prototype`, so
`getStatusText('constructor')` is not `undefined` and
`getCategoryIcon('constructor')` — the inherited function being truthy —
is not the pin icon. -/
theorem lookup_proto_counterexample :
    "constructor" ≠ "not-started" ∧ "constructor" ≠ "in-progress" ∧
    "constructor" ≠ "completed" ∧ "constructor" ≠ "home" ∧
    "constructor" ≠ "work" ∧ "constructor" ≠ "study" ∧
    TodoApp.getStatusText "constructor" ≠ .undefined ∧
    TodoApp.getCategoryIcon "constructor" ≠ .str "📌" := by
  decide

/-- C10 (amended): on a status or category outside the known keys, the
object literals still inherit from `Object.prototype`: a key that is not
an inherited member reads `undefined` from `getStatusText` and the pin
icon from `getCategoryIcon`, while an inherited member key (such as
`constructor` or `toString`) reads the inherited — truthy — member back
from both methods. -/
theorem lookupTotality_spec :
    (∀ st, st ≠ "not-started" → st ≠ "in-progress" → st ≠ "completed" →
      st ∉ objectProtoKeys → TodoApp.getStatusText st = .undefined) ∧
    (∀ st, st ≠ "not-started" → st ≠ "in-progress" → st ≠ "completed" →
      st ∈ objectProtoKeys → TodoApp.getStatusText st = .protoMember st) ∧
    (∀ c, c ≠ "home" → c ≠ "work" → c ≠ "study" →
      c ∉ objectProtoKeys → TodoApp.getCategoryIcon c = .str "📌") ∧
    (∀ c, c ≠ "home" → c ≠ "work" → c ≠ "study" →
      c ∈ objectProtoKeys → TodoApp.getCategoryIcon c = .protoMember c) := by
  refine ⟨?_, ?_, ?_, ?_⟩
  · intro st h1 h2 h3 hp
    simp [TodoApp.getStatusText, jsGetProp, statusTexts_miss h1 h2 h3, hp]
  · intro st h1 h2 h3 hp
    simp [TodoApp.getStatusText, jsGetProp, statusTexts_miss h1 h2 h3, hp]
  · intro c h1 h2 h3 hp
    simp [TodoApp.getCategoryIcon, jsGetProp, categoryIcons_miss h1 h2 h3, hp,
      JsProp.truthy]
  · intro c h1 h2 h3 hp
    simp [TodoApp.getCategoryIcon, jsGetProp, categoryIcons_miss h1 h2 h3, hp,
      JsProp.truthy]

/-- Witness for `lookupTotality_spec` at the unknown keys `deleted`,
`toString`, `misc` and `valueOf`. -/
theorem lookupTotality_spec_witness :
    TodoApp.getStatusText "deleted" = .undefined ∧
    TodoApp.getStatusText "toString" = .protoMember "toString" ∧
    TodoApp.getCategoryIcon "misc" = .str "📌" ∧
    TodoApp.getCategoryIcon "valueOf" = .protoMember "valueOf" :=
  ⟨lookupTotality_spec.1 "deleted" (by decide) (by decide) (by decide) (by decide),
   lookupTotality_spec.2.1 "toString" (by decide) (by decide) (by decide) (by decide),
   lookupTotality_spec.2.2.1 "misc" (by decide) (by decide) (by decide) (by decide),
   lookupTotality_spec.2.2.2 "valueOf" (by decide) (by decide) (by decide) (by decide)⟩

/-- C8 counterexample: a stored empty string is present and is not valid
JSON, yet no parse error is thrown: the truthiness guard `if (savedTasks)`
treats it like an absent key and the list is left empty. -/
theorem loadTasks_empty_counterexample :
    jsonParse "" = none ∧ loadTasks (some "") = .keep ∧
    startupTasks (some "") = some [] :=
  ⟨jsonParse_empty, rfl, rfl⟩

/-- C8 amended: absent storage leaves the list empty; a stored value that
parses is adopted wholesale, whatever its shape (no schema validation); a
stored *non-empty* value that does not parse aborts startup with an
uncaught parse error, the list never assigned — but the empty string,
although present and malformed, is falsy and behaves like an absent key. -/
theorem loadTasks_spec :
    (loadTasks none = .keep ∧ startupTasks none = some []) ∧
    (∀ s v, jsonParse s = some v → loadTasks (some s) = .replace v) ∧
    (∀ s, s ≠ "" → jsonParse s = none → loadTasks (some s) = .parseError) := by
  refine ⟨⟨rfl, rfl⟩, ?_, ?_⟩
  · intro s v h
    have hne : s ≠ "" := by
      intro he
      rw [he, jsonParse_empty] at h
      exact Option.noConfusion h
    rw [loadTasks, if_neg hne, h]
  · intro s hne h
    rw [loadTasks, if_neg hne, h]

/-- Witness for `loadTasks_spec`: the non-array document `true` is adopted
wholesale, so is the valid document `"\uE000"` (its `\u` escape names a
scalar at or above the surrogate range), and the malformed document `x`
aborts. -/
theorem loadTasks_spec_witness :
    loadTasks (some "true") = .replace (.jbool true) ∧
    loadTasks (some "\"\\uE000\"") = .replace (.jstr "\uE000") ∧
    loadTasks (some "x") = .parseError :=
  ⟨loadTasks_spec.2.1 "true" (.jbool true) jsonParse_true,
   loadTasks_spec.2.1 "\"\\uE000\"" (.jstr "\uE000") jsonParse_uE000,
   loadTasks_spec.2.2 "x" (by decide) jsonParse_x⟩

/-- C1 counterexample: one `addTask` (random draw 1, clock 0), then save
and reload: the revived task holds the ISO string rendering of its
creation instant where the saved task holds the `Date`, so the loaded list
is not field-for-field equal to the saved one. -/
theorem roundTrip_counterexample :
    startupTasks (runAdds [⟨1, 0, "a", "home", "not-started"⟩]).storage
      ≠ some (runAdds [⟨1, 0, "a", "home", "not-started"⟩]).tasks := by
  have hst : (runAdds [⟨1, 0, "a", "home", "not-started"⟩]).storage
      = some (stringifyTasks (runAdds [⟨1, 0, "a", "home", "not-started"⟩]).tasks) := rfl
  rw [hst, startupTasks, loadTasks,
    if_neg (stringifyTasks_ne_empty _), jsonParse_stringify]
  intro hc
  have hc2 : decodeTasks (tasksJson (runAdds [⟨1, 0, "a", "home", "not-started"⟩]).tasks)
      = some (runAdds [⟨1, 0, "a", "home", "not-started"⟩]).tasks := hc
  rw [decodeTasks_json] at hc2
  have hmap := Option.some.inj hc2
  exact absurd hmap (by decide)

/-- C1 amended: for every task list built only by `addTask` calls, saving
then loading reproduces the list exactly on `id`, `title`, `category` and
`status`, while each `createdAt` comes back as the ISO-8601 string
serialization of the saved creation `Date` — the same instant in a
different representation, not the `Date` value itself. -/
theorem roundTrip_spec (calls : List AddCall) :
    startupTasks (runAdds calls).storage
      = some ((runAdds calls).tasks.map Task.revived) ∧
    ∀ t : Task, (Task.revived t).id = t.id ∧ (Task.revived t).title = t.title ∧
      (Task.revived t).category = t.category ∧ (Task.revived t).status = t.status ∧
      (Task.revived t).createdAt = JsTime.str t.createdAt.serialized := by
  refine ⟨?_, fun t => ⟨rfl, rfl, rfl, rfl, rfl⟩⟩
  rcases foldAdds_inv calls (TodoApp.fresh none) (Or.inr ⟨rfl, rfl⟩) with h | ⟨h1, h2⟩
  · have h' : (runAdds calls).storage
        = some (stringifyTasks (runAdds calls).tasks) := h
    rw [h', startupTasks, loadTasks,
      if_neg (stringifyTasks_ne_empty _), jsonParse_stringify]
    exact decodeTasks_json _
  · have h1' : (runAdds calls).storage = none := h1
    have h2' : (runAdds calls).tasks = [] := h2
    rw [h1', h2']
    rfl

end Todo

